import Mathlib

/-!
Shallow embedding of the mmtc client sources (src/mpd.rs, src/layout.rs,
src/main.rs) together with theorems settling the specification claims.

Strings are modelled as lists of characters; Rust's `String::to_lowercase`
is modelled character-wise (this covers the ASCII range, which is all the
concrete inputs below use).  Machine integers (`u16`, `usize`, `isize`)
are modelled as `Nat`/`Int`; the `as isize` / `as usize` casts in
src/main.rs are modelled with explicit two's-complement wrapping at 64
bits, matching release-mode Rust on a 64-bit target.
-/

abbrev Str := List Char

/-- Coerce a Lean string literal to the character-list string model. -/
def str (s : String) : Str := s.data

/-- Character-wise lowercasing, the model of `String::to_lowercase`. -/
def toLowerStr (s : Str) : Str := s.map Char.toLower

/-- One queue entry, from `struct Track` in src/mpd.rs. -/
structure Track where
  file : Str
  artist : Option Str
  album : Option Str
  title : Option Str
  time : Nat
deriving DecidableEq, Inhabited

/-- Currently playing song info, from `struct Song` in src/mpd.rs. -/
structure Song where
  pos : Nat
  elapsed : Nat
deriving DecidableEq, Inhabited

/-- Which track fields feed the search index, from `struct SearchFields`
in src/config.rs. -/
structure SearchFields where
  file : Bool
  title : Bool
  artist : Bool
  album : Bool
deriving DecidableEq, Inhabited

/-- The search string of one track, from `fn track_string` in src/mpd.rs:
the enabled fields, lowercased, separated by newlines (no newline after
the album field). -/
def track_string (track : Track) (search_fields : SearchFields) : Str :=
  (if search_fields.file then toLowerStr track.file ++ [of_n] else [])
    ++ (if search_fields.title then
          match track.title with
          | some title => toLowerStr title ++ [of_n]
          | none => []
        else [])
    ++ (if search_fields.artist then
          match track.artist with
          | some artist => toLowerStr artist ++ [of_n]
          | none => []
        else [])
    ++ (if search_fields.album then
          match track.album with
          | some album => toLowerStr album
          | none => []
        else [])
where of_n : Char := Char.ofNat 10

namespace Mpd

/-- Digit parsing helper for the numeric `key: value` fields. -/
def digitVal (c : Char) : Option Nat :=
  if '0' ≤ c ∧ c ≤ '9' then some (c.toNat - '0'.toNat) else none

/-- Accumulating decimal parse over the remaining characters; fails on the
first non-digit. -/
def parseNatCore (acc : Nat) : Str → Option Nat
  | [] => some acc
  | c :: cs =>
    match digitVal c with
    | some d => parseNatCore (acc * 10 + d) cs
    | none => none

/-- Model of Rust's integer `FromStr`: an optional leading `+`, then a
nonempty run of decimal digits. -/
def parseNatStr : Str → Option Nat
  | [] => none
  | '+' :: rest => if rest.isEmpty then none else parseNatCore 0 rest
  | s => parseNatCore 0 s

/-- `str::parse::<u16>`: decimal parse with the u16 range check. -/
def parseU16 (s : Str) : Option Nat :=
  match parseNatStr s with
  | some n => if n < 2 ^ 16 then some n else none
  | none => none

/-- `str::parse::<usize>`: decimal parse with the 64-bit usize range check. -/
def parseUsize (s : Str) : Option Nat :=
  match parseNatStr s with
  | some n => if n < 2 ^ 64 then some n else none
  | none => none

/-- Errors surfaced by the response parsers: `bail!("incomplete ...")`
and propagated `str::parse` failures. -/
inductive PErr where
  | incomplete
  | parse
deriving DecidableEq

/-- The loop state of `Client::queue` in src/mpd.rs: the `first` flag, the
accumulated `tracks`/`track_strings` vectors, and the in-progress record's
five field accumulators. -/
structure QState where
  first : Bool
  tracks : List Track
  track_strings : List Str
  file : Option Str
  artist : Option Str
  album : Option Str
  title : Option Str
  time : Option Nat
deriving DecidableEq

/-- The state at entry of the `playlistinfo` read loop. -/
def qinit : QState := ⟨true, [], [], none, none, none, none, none⟩

/-- The post-loop flush in `Client::queue`: if a record is still open its
missing duration is defaulted (`time.unwrap_or_default()`), and the track
and its search string are pushed together. -/
def qflush (search_fields : SearchFields) (st : QState) :
    List Track × List Str :=
  match st.file with
  | some file =>
    let track : Track := ⟨file, st.artist, st.album, st.title, st.time.getD 0⟩
    (st.tracks ++ [track], st.track_strings ++ [track_string track search_fields])
  | none => (st.tracks, st.track_strings)

/-- One iteration of the `Client::queue` read loop on a single response
line.  `Except.ok none` signals the `OK` terminator (loop break);
`Except.ok (some st)` continues with the updated state. -/
def qstep (search_fields : SearchFields) (st : QState) (l : Str) :
    Except PErr (Option QState) :=
  if l = str "OK" then .ok none
  else if (str "file: ").isPrefixOf l then
    if st.first then
      .ok (some ⟨false, st.tracks, st.track_strings,
        some (l.drop 6), none, none, none, none⟩)
    else
      match st.file, st.time with
      | some file, some time =>
        let track : Track := ⟨file, st.artist, st.album, st.title, time⟩
        .ok (some ⟨false, st.tracks ++ [track],
          st.track_strings ++ [track_string track search_fields],
          some (l.drop 6), none, none, none, none⟩)
      | _, _ => .error .incomplete
  else if (str "Artist: ").isPrefixOf l then
    .ok (some { st with artist := some (l.drop 8) })
  else if (str "Album: ").isPrefixOf l then
    .ok (some { st with album := some (l.drop 7) })
  else if (str "Title: ").isPrefixOf l then
    .ok (some { st with title := some (l.drop 7) })
  else if (str "Time: ").isPrefixOf l then
    match parseU16 (l.drop 6) with
    | some time => .ok (some { st with time := some time })
    | none => .error .parse
  else .ok (some st)

/-- The `Client::queue` read loop from an arbitrary state over the
remaining response lines, ending with the post-loop flush. -/
def queueGo (search_fields : SearchFields) (st : QState) :
    List Str → Except PErr (List Track × List Str)
  | [] => .ok (qflush search_fields st)
  | l :: ls =>
    match qstep search_fields st l with
    | .error e => .error e
    | .ok none => .ok (qflush search_fields st)
    | .ok (some st') => queueGo search_fields st' ls

/-- `Client::queue` of src/mpd.rs on a given stream of response lines
(the `len` argument of the source is only a capacity hint and does not
affect the result). -/
def queue (search_fields : SearchFields) (lines : List Str) :
    Except PErr (List Track × List Str) :=
  queueGo search_fields qinit lines

/-- Outcome of running the read loop over a prefix of the stream without
the final flush: an error, a break at `OK` (`stop`), or end of the prefix
(`cont`). -/
inductive ManyRes where
  | err (e : PErr)
  | stop (st : QState)
  | cont (st : QState)

/-- Iterated `qstep` over a list of lines, without the final flush. -/
def stepMany (search_fields : SearchFields) (st : QState) :
    List Str → ManyRes
  | [] => .cont st
  | l :: ls =>
    match qstep search_fields st l with
    | .error e => .err e
    | .ok none => .stop st
    | .ok (some st') => stepMany search_fields st' ls

/-- Player state, from `enum PlayerState` in src/mpd.rs. -/
inductive PlayerState where
  | Play
  | Pause
  | Stop
deriving DecidableEq

/-- Remote player snapshot, from `struct Status` in src/mpd.rs
(`single = none` encodes oneshot). -/
structure Status where
  rep : Bool
  random : Bool
  single : Option Bool
  consume : Bool
  queue_len : Nat
  state : PlayerState
  song : Option Song
deriving DecidableEq

/-- The accumulator variables of `Client::status` in src/mpd.rs: the five
mandatory fields start out unseen, `state` starts out `Stop`, and the
optional song position/elapsed start out unseen. -/
structure SState where
  rep : Option Bool
  random : Option Bool
  single : Option (Option Bool)
  consume : Option Bool
  queue_len : Option Nat
  state : PlayerState
  pos : Option Nat
  elapsed : Option Nat
deriving DecidableEq

def sinit : SState := ⟨none, none, none, none, none, .Stop, none, none⟩

/-- The post-loop check of `Client::status`: succeeds iff all five
mandatory fields were seen; `song` is present iff both `song:` and
`elapsed:` were seen. -/
def sfinish (st : SState) : Except PErr Status :=
  match st.rep, st.random, st.single, st.consume, st.queue_len with
  | some rep, some random, some single, some consume, some queue_len =>
    .ok ⟨rep, random, single, consume, queue_len, st.state,
      match st.pos, st.elapsed with
      | some pos, some elapsed => some ⟨pos, elapsed⟩
      | _, _ => none⟩
  | _, _, _, _, _ => .error .incomplete

/-- The `Client::status` read loop of src/mpd.rs.  The `elapsed:` value is
parsed as `f32` and rounded to `u16` in the source; that floating-point
parse is abstracted as the `parseElapsed` parameter. -/
def statusGo (parseElapsed : Str → Option Nat) (st : SState) :
    List Str → Except PErr Status
  | [] => sfinish st
  | l :: ls =>
    if l = str "OK" then sfinish st
    else if l = str "repeat: 0" then
      statusGo parseElapsed { st with rep := some false } ls
    else if l = str "repeat: 1" then
      statusGo parseElapsed { st with rep := some true } ls
    else if l = str "random: 0" then
      statusGo parseElapsed { st with random := some false } ls
    else if l = str "random: 1" then
      statusGo parseElapsed { st with random := some true } ls
    else if l = str "single: 0" then
      statusGo parseElapsed { st with single := some (some false) } ls
    else if l = str "single: 1" then
      statusGo parseElapsed { st with single := some (some true) } ls
    else if l = str "single: oneshot" then
      statusGo parseElapsed { st with single := some none } ls
    else if l = str "consume: 0" then
      statusGo parseElapsed { st with consume := some false } ls
    else if l = str "consume: 1" then
      statusGo parseElapsed { st with consume := some true } ls
    else if (str "playlistlength: ").isPrefixOf l then
      match parseUsize (l.drop 16) with
      | some n => statusGo parseElapsed { st with queue_len := some n } ls
      | none => .error .parse
    else if l = str "state: play" then
      statusGo parseElapsed { st with state := .Play } ls
    else if l = str "state: pause" then
      statusGo parseElapsed { st with state := .Pause } ls
    else if (str "song: ").isPrefixOf l then
      match parseUsize (l.drop 6) with
      | some n => statusGo parseElapsed { st with pos := some n } ls
      | none => .error .parse
    else if (str "elapsed: ").isPrefixOf l then
      match parseElapsed (l.drop 9) with
      | some n => statusGo parseElapsed { st with elapsed := some n } ls
      | none => .error .parse
    else statusGo parseElapsed st ls

/-- `Client::status` of src/mpd.rs on a given stream of response lines. -/
def status (parseElapsed : Str → Option Nat) (lines : List Str) :
    Except PErr Status :=
  statusGo parseElapsed sinit lines

/-- `repeat:` was seen (with a recognized value) before the `OK`
terminator. -/
def seenRepeat : List Str → Bool
  | [] => false
  | l :: ls =>
    if l = str "OK" then false
    else if l = str "repeat: 0" ∨ l = str "repeat: 1" then true
    else seenRepeat ls

/-- `random:` was seen (with a recognized value) before the `OK`
terminator. -/
def seenRandom : List Str → Bool
  | [] => false
  | l :: ls =>
    if l = str "OK" then false
    else if l = str "random: 0" ∨ l = str "random: 1" then true
    else seenRandom ls

/-- `single:` was seen (with a recognized value) before the `OK`
terminator. -/
def seenSingle : List Str → Bool
  | [] => false
  | l :: ls =>
    if l = str "OK" then false
    else if l = str "single: 0" ∨ l = str "single: 1" ∨ l = str "single: oneshot"
      then true
    else seenSingle ls

/-- `consume:` was seen (with a recognized value) before the `OK`
terminator. -/
def seenConsume : List Str → Bool
  | [] => false
  | l :: ls =>
    if l = str "OK" then false
    else if l = str "consume: 0" ∨ l = str "consume: 1" then true
    else seenConsume ls

/-- `playlistlength:` was seen before the `OK` terminator. -/
def seenQueueLen : List Str → Bool
  | [] => false
  | l :: ls =>
    if l = str "OK" then false
    else if (str "playlistlength: ").isPrefixOf l then true
    else seenQueueLen ls

/-- All five mandatory status fields were seen before the terminator. -/
def seenMandatory (lines : List Str) : Bool :=
  seenRepeat lines && seenRandom lines && seenSingle lines
    && seenConsume lines && seenQueueLen lines

/-- Every recognized numeric line of the stream parses: the claims about
`status` quantify over streams whose recognized lines are well-formed. -/
def RecognizedWF (parseElapsed : Str → Option Nat) (lines : List Str) : Prop :=
  ∀ l ∈ lines,
    ((str "playlistlength: ").isPrefixOf l → (parseUsize (l.drop 16)).isSome)
    ∧ ((str "song: ").isPrefixOf l → (parseUsize (l.drop 6)).isSome)
    ∧ ((str "elapsed: ").isPrefixOf l → (parseElapsed (l.drop 9)).isSome)

end Mpd

namespace Layout

/-! The layout engine of src/layout.rs.  This revision of the tree treats
`Status.state` as `Option<bool>` (`some true` = play, `some false` =
pause, `none` = stop), per the comparisons in `eval_cond` and the use in
src/main.rs; its `Condition` enum carries exactly the variants matched by
`eval_cond`. -/

/-- Terminal colors, from `tui::style::Color`. -/
inductive Color where
  | Reset
  | Black
  | Red
  | Green
  | Yellow
  | Blue
  | Magenta
  | Cyan
  | Gray
  | DarkGray
  | LightRed
  | LightGreen
  | LightYellow
  | LightBlue
  | LightMagenta
  | LightCyan
  | White
  | Rgb (r g b : Nat)
  | Indexed (i : Nat)
deriving DecidableEq

/-- A set of text attributes, from `tui::style::Modifier` (a bitflag set). -/
structure ModifierSet where
  bold : Bool
  dim : Bool
  italic : Bool
  underlined : Bool
  slow_blink : Bool
  rapid_blink : Bool
  reversed : Bool
  hidden : Bool
  crossed_out : Bool
deriving DecidableEq

def ModifierSet.empty : ModifierSet :=
  ⟨false, false, false, false, false, false, false, false, false⟩

/-- A style patch, from `tui::style::Style`: optional colors plus the
attribute sets to add and to subtract (`Style::add_modifier` inserts into
`add_modifier` and removes from `sub_modifier`; `Style::remove_modifier`
the reverse). -/
structure Style where
  fg : Option Color
  bg : Option Color
  add_modifier : ModifierSet
  sub_modifier : ModifierSet
deriving DecidableEq

/-- `Style::default()`: no colors, no attributes. -/
def Style.default : Style := ⟨none, none, ModifierSet.empty, ModifierSet.empty⟩

/-- Style modifiers, from `enum AddStyle` in src/config.rs. -/
inductive AddStyle where
  | Fg (color : Color)
  | Bg (color : Color)
  | Bold
  | NoBold
  | Dim
  | NoDim
  | Italic
  | NoItalic
  | Underlined
  | NoUnderlined
  | SlowBlink
  | NoSlowBlink
  | RapidBlink
  | NoRapidBlink
  | Reversed
  | NoReversed
  | Hidden
  | NoHidden
  | CrossedOut
  | NoCrossedOut
deriving DecidableEq

/-- `fn patch_style` of src/layout.rs: fold the modifier list over the
ambient style, later modifiers winning on conflicting properties. -/
def patch_style (style : Style) (styles : List AddStyle) : Style :=
  styles.foldl
    (fun style add_style =>
      match add_style with
      | .Fg color => { style with fg := some color }
      | .Bg color => { style with bg := some color }
      | .Bold =>
        { style with add_modifier.bold := true, sub_modifier.bold := false }
      | .NoBold =>
        { style with add_modifier.bold := false, sub_modifier.bold := true }
      | .Dim =>
        { style with add_modifier.dim := true, sub_modifier.dim := false }
      | .NoDim =>
        { style with add_modifier.dim := false, sub_modifier.dim := true }
      | .Italic =>
        { style with add_modifier.italic := true, sub_modifier.italic := false }
      | .NoItalic =>
        { style with add_modifier.italic := false, sub_modifier.italic := true }
      | .Underlined =>
        { style with add_modifier.underlined := true, sub_modifier.underlined := false }
      | .NoUnderlined =>
        { style with add_modifier.underlined := false, sub_modifier.underlined := true }
      | .SlowBlink =>
        { style with add_modifier.slow_blink := true, sub_modifier.slow_blink := false }
      | .NoSlowBlink =>
        { style with add_modifier.slow_blink := false, sub_modifier.slow_blink := true }
      | .RapidBlink =>
        { style with add_modifier.rapid_blink := true, sub_modifier.rapid_blink := false }
      | .NoRapidBlink =>
        { style with add_modifier.rapid_blink := false, sub_modifier.rapid_blink := true }
      | .Reversed =>
        { style with add_modifier.reversed := true, sub_modifier.reversed := false }
      | .NoReversed =>
        { style with add_modifier.reversed := false, sub_modifier.reversed := true }
      | .Hidden =>
        { style with add_modifier.hidden := true, sub_modifier.hidden := false }
      | .NoHidden =>
        { style with add_modifier.hidden := false, sub_modifier.hidden := true }
      | .CrossedOut =>
        { style with add_modifier.crossed_out := true, sub_modifier.crossed_out := false }
      | .NoCrossedOut =>
        { style with add_modifier.crossed_out := false, sub_modifier.crossed_out := true })
    style

/-- Remote player snapshot as used by this revision of src/layout.rs and
src/main.rs (`single = none` encodes oneshot; `state = none` encodes
stopped). -/
structure Status where
  rep : Bool
  random : Bool
  single : Option Bool
  consume : Bool
  queue_len : Nat
  state : Option Bool
  song : Option Song
deriving DecidableEq

/-- Condition predicates, from `enum Condition`, restricted to the
variants matched by `eval_cond` in src/layout.rs. -/
inductive Condition where
  | Repeat
  | Random
  | Single
  | Oneshot
  | Consume
  | Playing
  | Paused
  | Stopped
  | TitleExist
  | ArtistExist
  | AlbumExist
  | QueueCurrent
  | Selected
  | Searching
  | Filtered
  | Not (x : Condition)
  | And (x y : Condition)
  | Or (x y : Condition)
  | Xor (x y : Condition)
deriving DecidableEq

/-- Inline content tree, from `enum Texts` in src/config.rs. -/
inductive Texts where
  | Text (s : Str)
  | CurrentElapsed
  | CurrentDuration
  | CurrentFile
  | CurrentTitle
  | CurrentArtist
  | CurrentAlbum
  | QueueDuration
  | QueueFile
  | QueueTitle
  | QueueArtist
  | QueueAlbum
  | Query
  | Styled (styles : List AddStyle) (inner : Texts)
  | Parts (xss : List Texts)
  | If (cond : Condition) (x : Texts) (y : Option Texts)

/-- `struct ConditionState` of src/layout.rs. -/
structure ConditionState where
  status : Status
  current_track : Option Track
  queue_current : Bool
  selected : Bool
  searching : Bool
  query : Str

/-- `struct FlattenState` of src/layout.rs. -/
structure FlattenState where
  status : Status
  current_track : Option Track
  queue_track : Option Track
  queue_current : Bool
  selected : Bool
  searching : Bool
  query : Str
  style : Style

/-- The `ConditionState` built from a `FlattenState` at an `If` node in
`flatten`. -/
def FlattenState.toCond (s : FlattenState) : ConditionState :=
  ⟨s.status, s.current_track, s.queue_current, s.selected, s.searching, s.query⟩

/-- `fn eval_cond` of src/layout.rs: a pure boolean fold. -/
def eval_cond (cond : Condition) (s : ConditionState) : Bool :=
  match cond with
  | .Repeat => s.status.rep
  | .Random => s.status.random
  | .Single => s.status.single == some true
  | .Oneshot => s.status.single == none
  | .Consume => s.status.consume
  | .Playing => s.status.state == some true
  | .Paused => s.status.state == some false
  | .Stopped => s.status.state == none
  | .TitleExist =>
    match s.current_track with
    | some ⟨_, _, _, some _, _⟩ => true
    | _ => false
  | .ArtistExist =>
    match s.current_track with
    | some ⟨_, some _, _, _, _⟩ => true
    | _ => false
  | .AlbumExist =>
    match s.current_track with
    | some ⟨_, _, some _, _, _⟩ => true
    | _ => false
  | .QueueCurrent => s.queue_current
  | .Selected => s.selected
  | .Searching => s.searching
  | .Filtered => !s.query.isEmpty
  | .Not x => !eval_cond x s
  | .And x y => eval_cond x s && eval_cond y s
  | .Or x y => eval_cond x s || eval_cond y s
  | .Xor x y => xor (eval_cond x s) (eval_cond y s)

/-- One styled span. -/
abbrev Span := Str × Style

/-- `format!("\x7b\x7d:\x7b:02\x7d", t / 60, t % 60)`: minutes, a colon,
seconds zero-padded to two digits. -/
def fmtTime (t : Nat) : Str :=
  Nat.toDigits 10 (t / 60)
    ++ ':' :: (if t % 60 < 10 then '0' :: Nat.toDigits 10 (t % 60)
               else Nat.toDigits 10 (t % 60))

mutual

/-- `fn flatten` of src/layout.rs: fold a `Texts` tree and a context into
an ordered list of styled spans.  The source pushes into a `spans` vector;
here the pushed spans are returned.  Note the `QueueFile` arm reads
`s.current_track`, exactly as the source does. -/
def flatten (xs : Texts) (s : FlattenState) : List Span :=
  match xs with
  | .Text x => [(x, s.style)]
  | .CurrentElapsed =>
    match s.status.song with
    | some song => [(fmtTime song.elapsed, s.style)]
    | none => []
  | .CurrentDuration =>
    match s.current_track with
    | some track => [(fmtTime track.time, s.style)]
    | none => []
  | .CurrentFile =>
    match s.current_track with
    | some track => [(track.file, s.style)]
    | none => []
  | .CurrentTitle =>
    match s.current_track with
    | some ⟨_, _, _, some title, _⟩ => [(title, s.style)]
    | _ => []
  | .CurrentArtist =>
    match s.current_track with
    | some ⟨_, some artist, _, _, _⟩ => [(artist, s.style)]
    | _ => []
  | .CurrentAlbum =>
    match s.current_track with
    | some ⟨_, _, some album, _, _⟩ => [(album, s.style)]
    | _ => []
  | .QueueDuration =>
    match s.queue_track with
    | some track => [(fmtTime track.time, s.style)]
    | none => []
  | .QueueFile =>
    match s.current_track with
    | some track => [(track.file, s.style)]
    | none => []
  | .QueueTitle =>
    match s.queue_track with
    | some ⟨_, _, _, some title, _⟩ => [(title, s.style)]
    | _ => []
  | .QueueArtist =>
    match s.queue_track with
    | some ⟨_, some artist, _, _, _⟩ => [(artist, s.style)]
    | _ => []
  | .QueueAlbum =>
    match s.queue_track with
    | some ⟨_, _, some album, _, _⟩ => [(album, s.style)]
    | _ => []
  | .Query => [(s.query, s.style)]
  | .Styled styles inner =>
    flatten inner { s with style := patch_style s.style styles }
  | .Parts xss => flattenParts xss s
  | .If cond x (some y) =>
    if eval_cond cond s.toCond then flatten x s else flatten y s
  | .If cond x none =>
    if eval_cond cond s.toCond then flatten x s else []
termination_by sizeOf xs

/-- The `Parts` loop of `flatten`: children evaluated in order, spans
concatenated. -/
def flattenParts (xss : List Texts) (s : FlattenState) : List Span :=
  match xss with
  | [] => []
  | x :: rest => flatten x s ++ flattenParts rest s
termination_by sizeOf xss

end

end Layout

namespace Sel

/-! Selection-movement and search state transitions of the command loop in
src/main.rs.  `Nat` arguments stand for `usize` values (< 2^64); the
`as isize` / `as usize` casts are modelled with explicit two's-complement
wrapping at 64 bits. -/

/-- `as usize` applied to an `isize` value: two's-complement wrap. -/
def wrapU64 (n : Int) : Nat := (n % (2 ^ 64 : Int)).toNat

/-- `as isize` / wrapping an `isize` arithmetic result into range. -/
def wrapI64 (n : Int) : Int :=
  let m := n % (2 ^ 64 : Int)
  if m < 2 ^ 63 then m else m - 2 ^ 64

/-- `usize as isize`. -/
def toIsize (n : Nat) : Int := wrapI64 n

/-- `Command::Down` effect on `selected`, from src/main.rs: `len` is the
visible length (`filtered.len()` when a query is active, else
`queue.len()`), `songPos` the daemon-reported current-song position
(`status.song.map_or(0, |song| song.pos)`). -/
def down (cycle : Bool) (selected len songPos : Nat) : Nat :=
  if selected ≥ len then songPos
  else if selected = len - 1 then
    if cycle then 0 else selected
  else selected + 1

/-- `Command::Up` effect on `selected`, from src/main.rs. -/
def up (cycle : Bool) (selected len songPos : Nat) : Nat :=
  if selected ≥ len then songPos
  else if selected = 0 then
    if cycle then len - 1 else selected
  else selected - 1

/-- `Command::JumpDown` effect on `selected`, from src/main.rs. -/
def jumpDown (cycle : Bool) (jump_lines selected len songPos : Nat) : Nat :=
  if selected ≥ len then songPos
  else if cycle then wrapU64 (selected + jump_lines) % len
  else min (wrapU64 (selected + jump_lines)) (len - 1)

/-- `Command::JumpUp` effect on `selected`, from src/main.rs:
`((selected as isize - jump_lines as isize) % len as isize) as usize` when
cycling, `max(selected as isize - jump_lines as isize, 0) as usize`
otherwise (Rust `%` on `isize` truncates toward zero, `Int.tmod`). -/
def jumpUp (cycle : Bool) (jump_lines selected len songPos : Nat) : Nat :=
  if selected ≥ len then songPos
  else if cycle then
    wrapU64 ((wrapI64 (toIsize selected - toIsize jump_lines)).tmod (toIsize len))
  else wrapU64 (max (wrapI64 (toIsize selected - toIsize jump_lines)) 0)

/-- Substring test, the model of Rust's `str::contains` with a string
pattern. -/
def strContains (hay needle : Str) : Bool :=
  match hay with
  | [] => needle.isEmpty
  | c :: t => needle.isPrefixOf (c :: t) || strContains t needle

/-- The `Command::UpdateSearch` rescan loop over the whole index
(`i` is the enumeration counter). -/
def updateSearchGo (q : Str) (i : Nat) : List Str → List Nat
  | [] => []
  | s :: rest =>
    if strContains s q then i :: updateSearchGo q (i + 1) rest
    else updateSearchGo q (i + 1) rest

/-- `Command::UpdateSearch` of src/main.rs: lowercase the query, then keep
the index of every search string containing it.  (The command also resets
the selection cursor; only the `filtered` rebuild is modelled here.) -/
def updateSearch (queue_strings : List Str) (query : Str) : List Nat :=
  updateSearchGo (toLowerStr query) 0 queue_strings

/-- Total model of the `queue_strings[i]` indexing. -/
def nth (xs : List Str) (i : Nat) : Str :=
  match xs, i with
  | [], _ => []
  | x :: _, 0 => x
  | _ :: t, n + 1 => nth t n

/-- The `Command::InputSearch` retain loop of src/main.rs when the
previous query was non-empty: after pushing the new character, keep
exactly the previously filtered indices whose search string contains the
new query — without lowercasing it. -/
def inputSearchRetain (queue_strings : List Str) (filtered : List Nat)
    (query : Str) : List Nat :=
  filtered.filter (fun i => strContains (nth queue_strings i) query)

end Sel

/-- A current track fixture for evaluating the `Queue*` field selectors. -/
def c2TrackA : Track :=
  ⟨str "a.mp3", some (str "Artist A"), some (str "Album A"), some (str "Song A"), 100⟩

/-- A queue-row track fixture distinct from the current track. -/
def c2TrackB : Track :=
  ⟨str "b.mp3", some (str "Artist B"), some (str "Album B"), some (str "Song B"), 200⟩

/-- A Queue-row evaluation context whose row track (`queue_track`) differs
from the globally current track (`current_track`) in every field. -/
def c2state : Layout.FlattenState :=
  ⟨⟨false, false, some false, false, 2, none, some ⟨0, 30⟩⟩,
    some c2TrackA, some c2TrackB, false, false, false, [], Layout.Style.default⟩

/-! ## Theorems -/

namespace Mpd

theorem queueGo_append (search_fields : SearchFields) (st : QState)
    (pre rest : List Str) :
    queueGo search_fields st (pre ++ rest) =
      match stepMany search_fields st pre with
      | .err e => .error e
      | .stop st' => .ok (qflush search_fields st')
      | .cont st' => queueGo search_fields st' rest := by
  induction pre generalizing st with
  | nil => simp [stepMany]
  | cons l ls ih =>
    simp only [List.cons_append, queueGo, stepMany]
    cases qstep search_fields st l with
    | error e => rfl
    | ok o => cases o with
      | none => rfl
      | some st' => exact ih st'

theorem queueGo_eq_stepMany (search_fields : SearchFields) (st : QState)
    (lines : List Str) :
    queueGo search_fields st lines =
      match stepMany search_fields st lines with
      | .err e => .error e
      | .stop st' => .ok (qflush search_fields st')
      | .cont st' => .ok (qflush search_fields st') := by
  have h := queueGo_append search_fields st lines []
  rw [List.append_nil] at h
  rw [h]
  cases stepMany search_fields st lines <;> rfl

end Mpd

/-- C6: for every `ConditionState`, the `Single` and `Oneshot` conditions
partition the tri-state `single` field: explicit on gives
`(Single, Oneshot) = (true, false)`, oneshot gives `(false, true)`, and
off gives `(false, false)`. -/
theorem c6_single_oneshot_partition (s : Layout.ConditionState) :
    (Layout.eval_cond .Single s, Layout.eval_cond .Oneshot s) =
      match s.status.single with
      | some true => (true, false)
      | some false => (false, false)
      | none => (false, true) := by
  rcases hs : s.status.single with _ | b
  · simp [Layout.eval_cond, hs]
  · cases b <;> simp [Layout.eval_cond, hs]

/-- C7: `Styled(mods, inner)` merges `mods` onto a copy of the ambient
style for `inner` only, `Parts` evaluates siblings under the unchanged
ambient style, and in particular
`Styled([Bold], Parts([Text a, Styled([NoBold], Text b), Text c]))`
yields `a` under the Bold-patched style, `b` under the NoBold-patched
inner style (bold removed), and `c` under the restored outer style (bold
back on). -/
theorem c7_styled_scoping (a b c : Str) (st : Layout.Style)
    (s : Layout.FlattenState) :
    (∀ (mods : List Layout.AddStyle) (inner : Layout.Texts)
        (s' : Layout.FlattenState),
        Layout.flatten (.Styled mods inner) s'
          = Layout.flatten inner
              { s' with style := Layout.patch_style s'.style mods })
    ∧ (∀ (xss : List Layout.Texts) (s' : Layout.FlattenState),
        Layout.flatten (.Parts xss) s' = Layout.flattenParts xss s')
    ∧ Layout.flatten
        (.Styled [.Bold]
          (.Parts [.Text a, .Styled [.NoBold] (.Text b), .Text c]))
        { s with style := st }
      = [(a, Layout.patch_style st [.Bold]),
         (b, Layout.patch_style (Layout.patch_style st [.Bold]) [.NoBold]),
         (c, Layout.patch_style st [.Bold])]
    ∧ (Layout.patch_style st [.Bold]).add_modifier.bold = true
    ∧ (Layout.patch_style
        (Layout.patch_style st [.Bold]) [.NoBold]).add_modifier.bold = false
    ∧ (Layout.patch_style
        (Layout.patch_style st [.Bold]) [.NoBold]).sub_modifier.bold = true := by
  refine ⟨fun mods inner s' => ?_, fun xss s' => ?_, ?_, ?_, ?_, ?_⟩ <;>
    simp [Layout.flatten, Layout.flattenParts, Layout.patch_style]

/-- C2 (code-bug evidence): in a Queue-row context whose row track differs
from the current track, `QueueTitle`/`QueueArtist`/`QueueAlbum`/
`QueueDuration` read the row's own track, but `QueueFile` emits the
globally current track's file (`a.mp3`), not the row's own (`b.mp3`) —
the `QueueFile` arm of `flatten` reads `s.current_track`. -/
theorem c2_queuefile_reads_current_track :
    Layout.flatten .QueueFile c2state = [(str "a.mp3", Layout.Style.default)]
    ∧ Layout.flatten .QueueFile c2state ≠ [(str "b.mp3", Layout.Style.default)]
    ∧ Layout.flatten .QueueTitle c2state = [(str "Song B", Layout.Style.default)]
    ∧ Layout.flatten .QueueArtist c2state
        = [(str "Artist B", Layout.Style.default)]
    ∧ Layout.flatten .QueueAlbum c2state
        = [(str "Album B", Layout.Style.default)]
    ∧ Layout.flatten .QueueDuration c2state
        = [(str "3:20", Layout.Style.default)] := by
  refine ⟨?_, ?_, ?_, ?_, ?_, ?_⟩ <;>
      simp [Layout.flatten, c2state, c2TrackA, c2TrackB] <;>
    decide

/-- C5 (counterexample): with `cycle = false`, visible length `5`,
current-song position `2` and a stale cursor `selected = 7 ≥ 5`, the
`Down` command yields `2` — the snap alone — whereas snapping and then
applying the movement on top would yield `Down` from `2`, which is `3`. -/
theorem c5_counterexample :
    Sel.down false 7 5 2 = 2 ∧ Sel.down false 2 5 2 = 3
    ∧ Sel.down false 7 5 2 ≠ Sel.down false 2 5 2 := by decide

/-- C5 (amended): when `selected ≥ visible_len`, every movement command
(`Down`, `Up`, `JumpDown`, `JumpUp`) sets the cursor to the
daemon-reported current-song position and the movement itself is absorbed
(not applied on top of the snapped position). -/
theorem c5_snap_absorbs_movement (cycle : Bool)
    (jump_lines selected len songPos : Nat) (h : selected ≥ len) :
    Sel.down cycle selected len songPos = songPos
    ∧ Sel.up cycle selected len songPos = songPos
    ∧ Sel.jumpDown cycle jump_lines selected len songPos = songPos
    ∧ Sel.jumpUp cycle jump_lines selected len songPos = songPos := by
  simp [Sel.down, Sel.up, Sel.jumpDown, Sel.jumpUp, h]

theorem c5_witness : 7 ≥ 5 ∧ Sel.down false 7 5 2 = 2 :=
  ⟨by decide, (c5_snap_absorbs_movement false 3 7 5 2 (by decide)).1⟩

/-- C8 (counterexample): with 64-bit `usize`/`isize` semantics, `JumpUp`
with `cycle = false`, `selected = 0 < len = 1` and
`jump_lines = 2 ^ 63 + 1 > selected` does not clamp to `0`: the
`jump_lines as isize` cast wraps negative, so the subtraction yields
`2 ^ 63 - 1`. -/
theorem c8_counterexample :
    Sel.jumpUp false (2 ^ 63 + 1) 0 1 0 = 2 ^ 63 - 1
    ∧ Sel.jumpUp false (2 ^ 63 + 1) 0 1 0 ≠ 0 := by decide

/-- C8 (amended): with `cycle = false`, `selected < visible_len` and
`selected < jump_lines`, provided `jump_lines < 2 ^ 63` (so the `isize`
casts do not wrap), `JumpUp` clamps the cursor to `0` — in particular no
unsigned underflow occurs for any visible length. -/
theorem c8_jumpup_clamps (jump_lines selected len songPos : Nat)
    (hlen : selected < len) (hjump : selected < jump_lines)
    (hrange : jump_lines < 2 ^ 63) :
    Sel.jumpUp false jump_lines selected len songPos = 0 := by
  rw [Sel.jumpUp, if_neg (by omega), if_neg (by simp)]
  have hs : Sel.toIsize selected = (selected : Int) := by
    rw [Sel.toIsize, Sel.wrapI64, if_pos (by omega)]
    omega
  have hj : Sel.toIsize jump_lines = (jump_lines : Int) := by
    rw [Sel.toIsize, Sel.wrapI64, if_pos (by omega)]
    omega
  rw [hs, hj]
  have hw : Sel.wrapI64 ((selected : Int) - jump_lines)
      = (selected : Int) - jump_lines := by
    rw [Sel.wrapI64, if_neg (by omega)]
    omega
  rw [hw, max_eq_right (by omega : (selected : Int) - jump_lines ≤ 0),
    Sel.wrapU64]
  decide

theorem c8_witness :
    (2 < 5 ∧ 2 < 10 ∧ 10 < 2 ^ 63) ∧ Sel.jumpUp false 10 2 5 0 = 0 :=
  ⟨by decide, c8_jumpup_clamps 10 2 5 0 (by decide) (by decide) (by decide)⟩

theorem qflush_strings_inv (search_fields : SearchFields) (st : Mpd.QState)
    (hinv : st.track_strings
      = st.tracks.map (fun t => track_string t search_fields)) :
    (Mpd.qflush search_fields st).2
      = (Mpd.qflush search_fields st).1.map
          (fun t => track_string t search_fields) := by
  rcases hf : st.file with _ | f <;> simp [Mpd.qflush, hf, hinv]

theorem qstep_strings_inv (search_fields : SearchFields) (st : Mpd.QState)
    (l : Str) (st' : Mpd.QState)
    (h : Mpd.qstep search_fields st l = .ok (some st'))
    (hinv : st.track_strings
      = st.tracks.map (fun t => track_string t search_fields)) :
    st'.track_strings
      = st'.tracks.map (fun t => track_string t search_fields) := by
  rw [Mpd.qstep] at h
  split_ifs at h with h1 h2 h3 h4 h5 h6 h7
  · simp at h
  · simp only [Except.ok.injEq, Option.some.injEq] at h
    subst h
    simpa using hinv
  · split at h
    · simp only [Except.ok.injEq, Option.some.injEq] at h
      subst h
      simp [hinv]
    · simp at h
  · simp only [Except.ok.injEq, Option.some.injEq] at h
    subst h
    simpa using hinv
  · simp only [Except.ok.injEq, Option.some.injEq] at h
    subst h
    simpa using hinv
  · simp only [Except.ok.injEq, Option.some.injEq] at h
    subst h
    simpa using hinv
  · split at h
    · simp only [Except.ok.injEq, Option.some.injEq] at h
      subst h
      simpa using hinv
    · simp at h
  · simp only [Except.ok.injEq, Option.some.injEq] at h
    subst h
    exact hinv

theorem queueGo_strings_inv (search_fields : SearchFields) (lines : List Str) :
    ∀ (st : Mpd.QState) (tracks : List Track) (strs : List Str),
      st.track_strings = st.tracks.map (fun t => track_string t search_fields) →
      Mpd.queueGo search_fields st lines = .ok (tracks, strs) →
      strs = tracks.map (fun t => track_string t search_fields) := by
  induction lines with
  | nil =>
    intro st tracks strs hinv h
    simp only [Mpd.queueGo, Except.ok.injEq] at h
    have := qflush_strings_inv search_fields st hinv
    rw [h] at this
    simpa using this
  | cons l ls ih =>
    intro st tracks strs hinv h
    simp only [Mpd.queueGo] at h
    rcases hq : Mpd.qstep search_fields st l with e | o
    · rw [hq] at h
      simp at h
    · rcases o with _ | st'
      · rw [hq] at h
        simp only [Except.ok.injEq] at h
        have := qflush_strings_inv search_fields st hinv
        rw [h] at this
        simpa using this
      · rw [hq] at h
        exact ih st' tracks strs (qstep_strings_inv search_fields st l st' hq hinv) h

/-- C9: whenever `queue()` succeeds, the returned search-string list has
the same length as the track list and its i-th element is exactly
`track_string` of the i-th track under the given `SearchFields`
(lowercased, enabled fields only) — the two sequences are built together
by the same loop. -/
theorem c9_search_index_parallel (search_fields : SearchFields)
    (lines : List Str) (tracks : List Track) (strs : List Str)
    (h : Mpd.queue search_fields lines = .ok (tracks, strs)) :
    strs.length = tracks.length
    ∧ strs = tracks.map (fun t => track_string t search_fields) := by
  have hmain := queueGo_strings_inv search_fields lines Mpd.qinit tracks strs
    (by simp [Mpd.qinit]) h
  exact ⟨by rw [hmain]; simp, hmain⟩

theorem c9_witness :
    Mpd.queue ⟨false, true, true, true⟩
        [str "file: a", str "Title: X", str "Time: 7", str "OK"]
      = .ok ([⟨str "a", none, none, some (str "X"), 7⟩], [str "x\n"])
    ∧ [str "x\n"].length = [(⟨str "a", none, none, some (str "X"), 7⟩ : Track)].length
    ∧ [str "x\n"]
      = [(⟨str "a", none, none, some (str "X"), 7⟩ : Track)].map
          (fun t => track_string t ⟨false, true, true, true⟩) :=
  ⟨by rfl,
    (c9_search_index_parallel ⟨false, true, true, true⟩
      [str "file: a", str "Title: X", str "Time: 7", str "OK"]
      [⟨str "a", none, none, some (str "X"), 7⟩] [str "x\n"] (by rfl)).1,
    (c9_search_index_parallel ⟨false, true, true, true⟩
      [str "file: a", str "Title: X", str "Time: 7", str "OK"]
      [⟨str "a", none, none, some (str "X"), 7⟩] [str "x\n"] (by rfl)).2⟩

/-- C1 (counterexample): a stream whose single — hence final — `file:`
record never receives a `Time:` field does not make `queue()` fail: the
final record's missing duration is defaulted to `0` and a one-track list
is returned. -/
theorem c1_counterexample :
    Mpd.queue ⟨true, true, true, true⟩ [str "file: a", str "OK"]
      = .ok ([⟨str "a", none, none, none, 0⟩], [str "a\n"])
    ∧ ∀ e : Mpd.PErr,
        Mpd.queue ⟨true, true, true, true⟩ [str "file: a", str "OK"]
          ≠ .error e := by
  refine ⟨by rfl, fun e h => ?_⟩
  rw [show Mpd.queue ⟨true, true, true, true⟩ [str "file: a", str "OK"]
    = .ok ([⟨str "a", none, none, none, 0⟩], [str "a\n"]) from rfl] at h
  exact Except.noConfusion h

/-- C1 (amended): if the read loop reaches a state with an open `file:`
record (`first = false`, `file = some f`) whose `Time:` was never seen
(`time = none`), then a further `file:` line makes `queue()` fail with
the incomplete-response error and no track list; but at the terminator
(`OK` line or end of stream) — i.e. for the *final* record — `queue()`
instead succeeds, defaulting the missing duration to `0`. -/
theorem c1_queue_missing_time (search_fields : SearchFields)
    (pre : List Str) (st : Mpd.QState) (f : Str)
    (hpre : Mpd.stepMany search_fields Mpd.qinit pre = .cont st)
    (hfirst : st.first = false) (hfile : st.file = some f)
    (htime : st.time = none) :
    (∀ (g : Str) (rest : List Str),
      Mpd.queue search_fields (pre ++ (str "file: " ++ g) :: rest)
        = .error .incomplete)
    ∧ Mpd.queue search_fields pre
        = .ok (st.tracks ++ [⟨f, st.artist, st.album, st.title, 0⟩],
            st.track_strings
              ++ [track_string ⟨f, st.artist, st.album, st.title, 0⟩
                    search_fields])
    ∧ ∀ rest : List Str,
        Mpd.queue search_fields (pre ++ str "OK" :: rest)
          = .ok (st.tracks ++ [⟨f, st.artist, st.album, st.title, 0⟩],
              st.track_strings
                ++ [track_string ⟨f, st.artist, st.album, st.title, 0⟩
                      search_fields]) := by
  have hflush : Mpd.qflush search_fields st
      = (st.tracks ++ [⟨f, st.artist, st.album, st.title, 0⟩],
         st.track_strings
           ++ [track_string ⟨f, st.artist, st.album, st.title, 0⟩
                 search_fields]) := by
    simp [Mpd.qflush, hfile, htime]
  refine ⟨fun g rest => ?_, ?_, fun rest => ?_⟩
  · rw [Mpd.queue, Mpd.queueGo_append, hpre]
    have hok : (str "file: " ++ g) ≠ str "OK" := fun h => by
      have h2 := congrArg List.length h
      rw [List.length_append,
        show (str "file: ").length = 6 from rfl,
        show (str "OK").length = 2 from rfl] at h2
      omega
    have hpf : (str "file: ").isPrefixOf (str "file: " ++ g) = true :=
      List.isPrefixOf_iff_prefix.mpr (List.prefix_append _ _)
    simp [Mpd.queueGo, Mpd.qstep, hok, hpf, hfirst, hfile, htime]
  · rw [Mpd.queue, Mpd.queueGo_eq_stepMany, hpre]
    exact congrArg Except.ok hflush
  · rw [Mpd.queue, Mpd.queueGo_append, hpre]
    simp [Mpd.queueGo, Mpd.qstep, hflush]

theorem c1_witness :
    Mpd.queue ⟨true, true, true, true⟩
        [str "file: a", str "file: " ++ str "b", str "OK"] = .error .incomplete
    ∧ Mpd.queue ⟨true, true, true, true⟩ [str "file: a"]
        = .ok ([⟨str "a", none, none, none, 0⟩],
            [track_string ⟨str "a", none, none, none, 0⟩
              ⟨true, true, true, true⟩]) := by
  have h := c1_queue_missing_time ⟨true, true, true, true⟩ [str "file: a"]
    ⟨false, [], [], some (str "a"), none, none, none, none⟩ (str "a")
    (by rfl) rfl rfl rfl
  refine ⟨?_, ?_⟩
  · simpa using h.1 (str "b") [str "OK"]
  · simpa using h.2.1

theorem strContains_iff (hay needle : Str) :
    Sel.strContains hay needle = true ↔ needle <:+: hay := by
  induction hay with
  | nil => simp [Sel.strContains, List.isEmpty_iff, List.infix_nil]
  | cons c t ih =>
    simp [Sel.strContains, ih, List.infix_cons_iff, List.isPrefixOf_iff_prefix]

theorem strContains_of_append (s q : Str) (c : Char)
    (h : Sel.strContains s (q ++ [c]) = true) :
    Sel.strContains s q = true := by
  rw [strContains_iff] at h ⊢
  exact ((List.prefix_append q [c]).isInfix).trans h

theorem nth_append (pre : List Str) (s : Str) (t : List Str) :
    Sel.nth (pre ++ s :: t) pre.length = s := by
  induction pre with
  | nil => rfl
  | cons x xs ih => simpa [Sel.nth] using ih

theorem retain_eq_rescan_go (strings : List Str) (q : Str) (c : Char)
    (hmap : toLowerStr (q ++ [c]) = q ++ [c]) :
    ∀ (rest pre : List Str), strings = pre ++ rest →
      (Sel.updateSearchGo (toLowerStr q) pre.length rest).filter
          (fun i => Sel.strContains (Sel.nth strings i) (q ++ [c]))
        = Sel.updateSearchGo (toLowerStr (q ++ [c])) pre.length rest := by
  have hq : toLowerStr q = q := by
    have h1 : toLowerStr q ++ [Char.toLower c] = q ++ [c] := by
      simpa [toLowerStr] using hmap
    exact (List.append_inj h1 (by simp [toLowerStr])).1
  simp only [hq, hmap]
  intro rest
  induction rest with
  | nil => intro pre _; rfl
  | cons s rest' ih =>
    intro pre hsplit
    have hnth : Sel.nth strings pre.length = s := by
      rw [hsplit]
      exact nth_append pre s rest'
    have hsplit' : strings = (pre ++ [s]) ++ rest' := by
      rw [hsplit]
      simp
    simp only [Sel.updateSearchGo]
    by_cases hnew : Sel.strContains s (q ++ [c]) = true
    · have hold : Sel.strContains s q = true := strContains_of_append s q c hnew
      rw [if_pos hold, if_pos hnew,
        List.filter_cons_of_pos (by simpa [hnth] using hnew)]
      have := ih (pre ++ [s]) hsplit'
      simpa using this
    · rw [if_neg hnew]
      cases hold : Sel.strContains s q with
      | false =>
        rw [if_neg (by simp)]
        have := ih (pre ++ [s]) hsplit'
        simpa using this
      | true =>
        rw [if_pos rfl, List.filter_cons_of_neg (by simpa [hnth] using hnew)]
        have := ih (pre ++ [s]) hsplit'
        simpa using this

/-- C3 (counterexample): with search index `["aa"]` and previous query
`"a"` (filtered = `[0]`), appending the uppercase character `A` makes the
incremental retain-filter drop index `0` (it matches the raw query `"aA"`
against the lowercase index), while a full rescan (which lowercases the
query to `"aa"`) keeps it — the two implementations disagree on queries
containing uppercase characters. -/
theorem c3_counterexample :
    str "a" ≠ []
    ∧ Sel.inputSearchRetain [str "aa"] (Sel.updateSearch [str "aa"] (str "a"))
        (str "a" ++ ['A'])
      ≠ Sel.updateSearch [str "aa"] (str "a" ++ ['A']) := by decide

/-- C3 (amended): appending one character to a non-empty query via the
incremental retain-filter yields the same `filtered` sequence as a full
rescan of the entire index against the new query, provided the new query
is unchanged by lowercasing (contains no uppercase characters); with
uppercase characters the retain-filter can drop matches the rescan keeps,
because it does not lowercase the query. -/
theorem c3_retain_eq_rescan (strings : List Str) (q : Str) (c : Char)
    (_hne : q ≠ []) (hmap : toLowerStr (q ++ [c]) = q ++ [c]) :
    Sel.inputSearchRetain strings (Sel.updateSearch strings q) (q ++ [c])
      = Sel.updateSearch strings (q ++ [c]) := by
  have h := retain_eq_rescan_go strings q c hmap strings [] rfl
  simpa [Sel.inputSearchRetain, Sel.updateSearch] using h

theorem c3_witness :
    (str "ab" ≠ [] ∧ toLowerStr (str "ab" ++ ['c']) = str "ab" ++ ['c'])
    ∧ Sel.inputSearchRetain [str "abc", str "abd"]
        (Sel.updateSearch [str "abc", str "abd"] (str "ab"))
        (str "ab" ++ ['c'])
      = Sel.updateSearch [str "abc", str "abd"] (str "ab" ++ ['c']) :=
  ⟨⟨by decide, by decide⟩,
    c3_retain_eq_rescan [str "abc", str "abd"] (str "ab") 'c'
      (by decide) (by decide)⟩


theorem sfinish_ok_iff (st : Mpd.SState) :
    (∃ s, Mpd.sfinish st = .ok s) ↔
      (st.rep.isSome && st.random.isSome && st.single.isSome
        && st.consume.isSome && st.queue_len.isSome) = true := by
  obtain ⟨r, ra, si, co, ql, sta, po, el⟩ := st
  cases r <;> cases ra <;> cases si <;> cases co <;> cases ql <;>
    simp [Mpd.sfinish]

theorem sfinish_ok_or_incomplete (st : Mpd.SState) :
    (∃ s, Mpd.sfinish st = .ok s) ∨ Mpd.sfinish st = .error .incomplete := by
  obtain ⟨r, ra, si, co, ql, sta, po, el⟩ := st
  cases r <;> cases ra <;> cases si <;> cases co <;> cases ql <;>
    simp [Mpd.sfinish]

theorem sfinish_state (st : Mpd.SState) (s : Mpd.Status)
    (h : Mpd.sfinish st = .ok s) : s.state = st.state := by
  obtain ⟨r, ra, si, co, ql, sta, po, el⟩ := st
  cases r <;> cases ra <;> cases si <;> cases co <;> cases ql <;>
    first
      | exact Except.noConfusion h
      | (injection h with h2; subst h2; rfl)


theorem statusGo_ok_iff (pe : Str → Option Nat) (lines : List Str) :
    ∀ st : Mpd.SState, Mpd.RecognizedWF pe lines →
      ((∃ s, Mpd.statusGo pe st lines = .ok s) ↔
        ((st.rep.isSome || Mpd.seenRepeat lines)
          && (st.random.isSome || Mpd.seenRandom lines)
          && (st.single.isSome || Mpd.seenSingle lines)
          && (st.consume.isSome || Mpd.seenConsume lines)
          && (st.queue_len.isSome || Mpd.seenQueueLen lines)) = true) := by
  induction lines with
  | nil =>
    intro st _
    simpa [Mpd.statusGo, Mpd.seenRepeat, Mpd.seenRandom, Mpd.seenSingle, Mpd.seenConsume, Mpd.seenQueueLen] using sfinish_ok_iff st
  | cons l ls ih =>
    intro st hwf
    have hwfl : Mpd.RecognizedWF pe ls :=
      fun x hx => hwf x (List.mem_cons_of_mem _ hx)
    have hl := hwf l (List.mem_cons_self _ _)
    have ih2 := fun st => ih st hwfl
    by_cases h0 : l = str "OK"
    · subst h0
      simpa +decide [Mpd.statusGo, Mpd.seenRepeat, Mpd.seenRandom, Mpd.seenSingle, Mpd.seenConsume, Mpd.seenQueueLen] using sfinish_ok_iff st
    by_cases h1 : l = str "repeat: 0"
    · subst h1
      simp +decide [Mpd.statusGo, Mpd.seenRepeat, Mpd.seenRandom, Mpd.seenSingle, Mpd.seenConsume, Mpd.seenQueueLen, ih2]
    by_cases h2 : l = str "repeat: 1"
    · subst h2
      simp +decide [Mpd.statusGo, Mpd.seenRepeat, Mpd.seenRandom, Mpd.seenSingle, Mpd.seenConsume, Mpd.seenQueueLen, ih2]
    by_cases h3 : l = str "random: 0"
    · subst h3
      simp +decide [Mpd.statusGo, Mpd.seenRepeat, Mpd.seenRandom, Mpd.seenSingle, Mpd.seenConsume, Mpd.seenQueueLen, ih2]
    by_cases h4 : l = str "random: 1"
    · subst h4
      simp +decide [Mpd.statusGo, Mpd.seenRepeat, Mpd.seenRandom, Mpd.seenSingle, Mpd.seenConsume, Mpd.seenQueueLen, ih2]
    by_cases h5 : l = str "single: 0"
    · subst h5
      simp +decide [Mpd.statusGo, Mpd.seenRepeat, Mpd.seenRandom, Mpd.seenSingle, Mpd.seenConsume, Mpd.seenQueueLen, ih2]
    by_cases h6 : l = str "single: 1"
    · subst h6
      simp +decide [Mpd.statusGo, Mpd.seenRepeat, Mpd.seenRandom, Mpd.seenSingle, Mpd.seenConsume, Mpd.seenQueueLen, ih2]
    by_cases h7 : l = str "single: oneshot"
    · subst h7
      simp +decide [Mpd.statusGo, Mpd.seenRepeat, Mpd.seenRandom, Mpd.seenSingle, Mpd.seenConsume, Mpd.seenQueueLen, ih2]
    by_cases h8 : l = str "consume: 0"
    · subst h8
      simp +decide [Mpd.statusGo, Mpd.seenRepeat, Mpd.seenRandom, Mpd.seenSingle, Mpd.seenConsume, Mpd.seenQueueLen, ih2]
    by_cases h9 : l = str "consume: 1"
    · subst h9
      simp +decide [Mpd.statusGo, Mpd.seenRepeat, Mpd.seenRandom, Mpd.seenSingle, Mpd.seenConsume, Mpd.seenQueueLen, ih2]
    by_cases hpl : (str "playlistlength: ").isPrefixOf l = true
    · obtain ⟨n, hn⟩ := Option.isSome_iff_exists.mp (hl.1 hpl)
      simp [Mpd.statusGo, Mpd.seenRepeat, Mpd.seenRandom, Mpd.seenSingle, Mpd.seenConsume, Mpd.seenQueueLen, h0, h1, h2, h3, h4, h5, h6, h7, h8, h9, hpl, hn, ih2]
    by_cases h10 : l = str "state: play"
    · subst h10
      simp +decide [Mpd.statusGo, Mpd.seenRepeat, Mpd.seenRandom, Mpd.seenSingle, Mpd.seenConsume, Mpd.seenQueueLen, ih2]
    by_cases h11 : l = str "state: pause"
    · subst h11
      simp +decide [Mpd.statusGo, Mpd.seenRepeat, Mpd.seenRandom, Mpd.seenSingle, Mpd.seenConsume, Mpd.seenQueueLen, ih2]
    by_cases hsong : (str "song: ").isPrefixOf l = true
    · obtain ⟨n, hn⟩ := Option.isSome_iff_exists.mp (hl.2.1 hsong)
      simp [Mpd.statusGo, Mpd.seenRepeat, Mpd.seenRandom, Mpd.seenSingle, Mpd.seenConsume, Mpd.seenQueueLen, h0, h1, h2, h3, h4, h5, h6, h7, h8, h9, hpl, h10, h11, hsong, hn, ih2]
    by_cases hel : (str "elapsed: ").isPrefixOf l = true
    · obtain ⟨n, hn⟩ := Option.isSome_iff_exists.mp (hl.2.2 hel)
      simp [Mpd.statusGo, Mpd.seenRepeat, Mpd.seenRandom, Mpd.seenSingle, Mpd.seenConsume, Mpd.seenQueueLen, h0, h1, h2, h3, h4, h5, h6, h7, h8, h9, hpl, h10, h11, hsong, hel, hn, ih2]
    simp [Mpd.statusGo, Mpd.seenRepeat, Mpd.seenRandom, Mpd.seenSingle, Mpd.seenConsume, Mpd.seenQueueLen, h0, h1, h2, h3, h4, h5, h6, h7, h8, h9, hpl, h10, h11, hsong, hel, ih2]

theorem statusGo_ok_or_incomplete (pe : Str → Option Nat) (lines : List Str) :
    ∀ st : Mpd.SState, Mpd.RecognizedWF pe lines →
      (∃ s, Mpd.statusGo pe st lines = .ok s)
      ∨ Mpd.statusGo pe st lines = .error .incomplete := by
  induction lines with
  | nil =>
    intro st _
    simpa [Mpd.statusGo] using sfinish_ok_or_incomplete st
  | cons l ls ih =>
    intro st hwf
    have hwfl : Mpd.RecognizedWF pe ls :=
      fun x hx => hwf x (List.mem_cons_of_mem _ hx)
    have hl := hwf l (List.mem_cons_self _ _)
    have ih2 := fun st => ih st hwfl
    by_cases h0 : l = str "OK"
    · subst h0
      simpa +decide [Mpd.statusGo] using sfinish_ok_or_incomplete st
    by_cases h1 : l = str "repeat: 0"
    · subst h1
      simpa +decide [Mpd.statusGo] using ih2 { st with rep := some false }
    by_cases h2 : l = str "repeat: 1"
    · subst h2
      simpa +decide [Mpd.statusGo] using ih2 { st with rep := some true }
    by_cases h3 : l = str "random: 0"
    · subst h3
      simpa +decide [Mpd.statusGo] using ih2 { st with random := some false }
    by_cases h4 : l = str "random: 1"
    · subst h4
      simpa +decide [Mpd.statusGo] using ih2 { st with random := some true }
    by_cases h5 : l = str "single: 0"
    · subst h5
      simpa +decide [Mpd.statusGo] using ih2 { st with single := some (some false) }
    by_cases h6 : l = str "single: 1"
    · subst h6
      simpa +decide [Mpd.statusGo] using ih2 { st with single := some (some true) }
    by_cases h7 : l = str "single: oneshot"
    · subst h7
      simpa +decide [Mpd.statusGo] using ih2 { st with single := some none }
    by_cases h8 : l = str "consume: 0"
    · subst h8
      simpa +decide [Mpd.statusGo] using ih2 { st with consume := some false }
    by_cases h9 : l = str "consume: 1"
    · subst h9
      simpa +decide [Mpd.statusGo] using ih2 { st with consume := some true }
    by_cases hpl : (str "playlistlength: ").isPrefixOf l = true
    · obtain ⟨n, hn⟩ := Option.isSome_iff_exists.mp (hl.1 hpl)
      simpa [Mpd.statusGo, h0, h1, h2, h3, h4, h5, h6, h7, h8, h9, hpl, hn]
        using ih2 { st with queue_len := some n }
    by_cases h10 : l = str "state: play"
    · subst h10
      simpa +decide [Mpd.statusGo] using ih2 { st with state := .Play }
    by_cases h11 : l = str "state: pause"
    · subst h11
      simpa +decide [Mpd.statusGo] using ih2 { st with state := .Pause }
    by_cases hsong : (str "song: ").isPrefixOf l = true
    · obtain ⟨n, hn⟩ := Option.isSome_iff_exists.mp (hl.2.1 hsong)
      simpa [Mpd.statusGo, h0, h1, h2, h3, h4, h5, h6, h7, h8, h9, hpl, h10, h11, hsong, hn]
        using ih2 { st with pos := some n }
    by_cases hel : (str "elapsed: ").isPrefixOf l = true
    · obtain ⟨n, hn⟩ := Option.isSome_iff_exists.mp (hl.2.2 hel)
      simpa [Mpd.statusGo, h0, h1, h2, h3, h4, h5, h6, h7, h8, h9, hpl, h10, h11, hsong, hel, hn]
        using ih2 { st with elapsed := some n }
    simpa [Mpd.statusGo, h0, h1, h2, h3, h4, h5, h6, h7, h8, h9, hpl, h10, h11, hsong, hel] using ih2 st

theorem statusGo_state (pe : Str → Option Nat) (lines : List Str) :
    ∀ (st : Mpd.SState) (s : Mpd.Status),
      (∀ l ∈ lines, (str "state:").isPrefixOf l = false) →
      Mpd.statusGo pe st lines = .ok s → s.state = st.state := by
  induction lines with
  | nil =>
    intro st s _ h
    exact sfinish_state st s (by simpa [Mpd.statusGo] using h)
  | cons l ls ih =>
    intro st s hns h
    have hnsl : ∀ x ∈ ls, (str "state:").isPrefixOf x = false :=
      fun x hx => hns x (List.mem_cons_of_mem _ hx)
    have hl := hns l (List.mem_cons_self _ _)
    have h10 : l ≠ str "state: play" := fun he => by
      subst he
      exact absurd hl (by decide)
    have h11 : l ≠ str "state: pause" := fun he => by
      subst he
      exact absurd hl (by decide)
    by_cases h0 : l = str "OK"
    · subst h0
      exact sfinish_state st s (by simpa +decide [Mpd.statusGo] using h)
    by_cases h1 : l = str "repeat: 0"
    · subst h1
      simp +decide [Mpd.statusGo] at h
      exact ih { st with rep := some false } s hnsl h
    by_cases h2 : l = str "repeat: 1"
    · subst h2
      simp +decide [Mpd.statusGo] at h
      exact ih { st with rep := some true } s hnsl h
    by_cases h3 : l = str "random: 0"
    · subst h3
      simp +decide [Mpd.statusGo] at h
      exact ih { st with random := some false } s hnsl h
    by_cases h4 : l = str "random: 1"
    · subst h4
      simp +decide [Mpd.statusGo] at h
      exact ih { st with random := some true } s hnsl h
    by_cases h5 : l = str "single: 0"
    · subst h5
      simp +decide [Mpd.statusGo] at h
      exact ih { st with single := some (some false) } s hnsl h
    by_cases h6 : l = str "single: 1"
    · subst h6
      simp +decide [Mpd.statusGo] at h
      exact ih { st with single := some (some true) } s hnsl h
    by_cases h7 : l = str "single: oneshot"
    · subst h7
      simp +decide [Mpd.statusGo] at h
      exact ih { st with single := some none } s hnsl h
    by_cases h8 : l = str "consume: 0"
    · subst h8
      simp +decide [Mpd.statusGo] at h
      exact ih { st with consume := some false } s hnsl h
    by_cases h9 : l = str "consume: 1"
    · subst h9
      simp +decide [Mpd.statusGo] at h
      exact ih { st with consume := some true } s hnsl h
    by_cases hpl : (str "playlistlength: ").isPrefixOf l = true
    · rcases hp : Mpd.parseUsize (List.drop 16 l) with _ | n
      · simp [Mpd.statusGo, h0, h1, h2, h3, h4, h5, h6, h7, h8, h9, hpl, hp] at h
      · simp [Mpd.statusGo, h0, h1, h2, h3, h4, h5, h6, h7, h8, h9, hpl, hp] at h
        exact ih { st with queue_len := some n } s hnsl h
    by_cases hsong : (str "song: ").isPrefixOf l = true
    · rcases hp : Mpd.parseUsize (List.drop 6 l) with _ | n
      · simp [Mpd.statusGo, h0, h1, h2, h3, h4, h5, h6, h7, h8, h9, hpl, h10, h11, hsong, hp] at h
      · simp [Mpd.statusGo, h0, h1, h2, h3, h4, h5, h6, h7, h8, h9, hpl, h10, h11, hsong, hp] at h
        exact ih { st with pos := some n } s hnsl h
    by_cases hel : (str "elapsed: ").isPrefixOf l = true
    · rcases hp : pe (List.drop 9 l) with _ | n
      · simp [Mpd.statusGo, h0, h1, h2, h3, h4, h5, h6, h7, h8, h9, hpl, h10, h11, hsong, hel, hp] at h
      · simp [Mpd.statusGo, h0, h1, h2, h3, h4, h5, h6, h7, h8, h9, hpl, h10, h11, hsong, hel, hp] at h
        exact ih { st with elapsed := some n } s hnsl h
    simp [Mpd.statusGo, h0, h1, h2, h3, h4, h5, h6, h7, h8, h9, hpl, h10, h11, hsong, hel] at h
    exact ih st s hnsl h

/-- C4: on a stream whose recognized numeric lines are well-formed,
`status()` returns a parsed `Status` if and only if each of the five
mandatory fields (`repeat`, `random`, `single`, `consume`,
`playlistlength`) was seen at least once before the terminating `OK`
line; if any was never seen it fails with the incomplete-response error
and returns no `Status`. -/
theorem c4_status_mandatory_iff (pe : Str → Option Nat) (lines : List Str)
    (hwf : Mpd.RecognizedWF pe lines) :
    ((∃ s, Mpd.status pe lines = .ok s) ↔ Mpd.seenMandatory lines = true)
    ∧ (Mpd.seenMandatory lines = false →
        Mpd.status pe lines = .error .incomplete) := by
  have h1 := statusGo_ok_iff pe lines Mpd.sinit hwf
  have h2 := statusGo_ok_or_incomplete pe lines Mpd.sinit hwf
  simp only [Mpd.sinit, Option.isSome_none, Bool.false_or] at h1 h2
  constructor
  · simpa [Mpd.status, Mpd.sinit, Mpd.seenMandatory] using h1
  · intro hf
    rw [Mpd.seenMandatory] at hf
    rcases h2 with hok | herr
    · exfalso
      have h3 := h1.mp hok
      rw [h3] at hf
      exact Bool.noConfusion hf
    · exact herr

theorem c4_witness :
    Mpd.seenMandatory
        [str "repeat: 1", str "random: 0", str "single: oneshot",
          str "consume: 0", str "playlistlength: 2", str "OK"] = true
    ∧ ∃ s, Mpd.status (fun _ => none)
        [str "repeat: 1", str "random: 0", str "single: oneshot",
          str "consume: 0", str "playlistlength: 2", str "OK"] = .ok s :=
  ⟨by decide,
    ((c4_status_mandatory_iff (fun _ => none)
      [str "repeat: 1", str "random: 0", str "single: oneshot",
        str "consume: 0", str "playlistlength: 2", str "OK"]
      (by unfold Mpd.RecognizedWF; decide)).1).mpr (by decide)⟩

/-- C10 (amended): on a stream whose recognized numeric lines are
well-formed, containing all five mandatory fields but no `state:` line,
`status()` succeeds and the returned `Status` has player state `Stop` —
`state:` is not mandatory and defaults to `Stop` rather than causing an
incomplete-response failure. -/
theorem c10_state_defaults_stop (pe : Str → Option Nat) (lines : List Str)
    (hwf : Mpd.RecognizedWF pe lines)
    (hseen : Mpd.seenMandatory lines = true)
    (hnostate : ∀ l ∈ lines, (str "state:").isPrefixOf l = false) :
    ∃ s, Mpd.status pe lines = .ok s ∧ s.state = .Stop := by
  have h1 := statusGo_ok_iff pe lines Mpd.sinit hwf
  simp only [Mpd.sinit, Option.isSome_none, Bool.false_or] at h1
  rw [Mpd.seenMandatory] at hseen
  obtain ⟨s, hs⟩ := h1.mpr hseen
  exact ⟨s, hs, statusGo_state pe lines Mpd.sinit s hnostate hs⟩

theorem c10_witness :
    ∃ s, Mpd.status (fun _ => none)
        [str "repeat: 1", str "random: 0", str "single: oneshot",
          str "consume: 0", str "playlistlength: 2", str "OK"] = .ok s
      ∧ s.state = .Stop :=
  c10_state_defaults_stop (fun _ => none)
    [str "repeat: 1", str "random: 0", str "single: oneshot",
      str "consume: 0", str "playlistlength: 2", str "OK"]
    (by unfold Mpd.RecognizedWF; decide) (by decide) (by decide)

/-- C10 (counterexample): a stream containing all five mandatory fields
and no `state:` line can still make `status()` fail — a malformed
`song:` value propagates a parse error — so the claim needs the same
well-formedness qualifier as C4. -/
theorem c10_counterexample :
    Mpd.seenMandatory
        [str "repeat: 1", str "random: 0", str "single: oneshot",
          str "consume: 0", str "playlistlength: 2", str "song: x", str "OK"]
      = true
    ∧ (∀ l ∈ [str "repeat: 1", str "random: 0", str "single: oneshot",
          str "consume: 0", str "playlistlength: 2", str "song: x", str "OK"],
        (str "state:").isPrefixOf l = false)
    ∧ Mpd.status (fun _ => none)
        [str "repeat: 1", str "random: 0", str "single: oneshot",
          str "consume: 0", str "playlistlength: 2", str "song: x", str "OK"]
      = .error .parse :=
  ⟨by decide, by decide, rfl⟩
